import Mathlib

/-!
Verification of the Benthos stream-runtime components against their
natural-language specification.  Each definition is a shallow embedding of
one Go function of the repository; theorems settle the spec claims.
-/

namespace Benthos

/-!
### The drop_on output combinator

Modelled from the spec: the drop_on output implementation is absent from the
sources (only its tests are present).  The model follows the spec section on
the drop_on combinator, adjusted where the repository tests
TestDropOnNothing, TestDropOnError, TestDropOnBackpressureWithErrors and
TestDropOnDisconnectBackpressureNoErrors pin the observable behaviour: a
back-pressure drop surfaces the back-pressure error upstream unless the
on_error flag converts every child failure into a nil response.
-/

/-- Errors a drop_on wrapper can observe for one transaction.  Child errors
are tracked by an opaque numeric id. -/
inductive DropOnErr
  | childErr (n : Nat)
  | backPressureExceeded (ms : Nat)
deriving DecidableEq

/-- Outcome of handing one transaction to the wrapped child output. -/
inductive DropOutcome
  | childResponded (res : Option Nat)
  | backPressureElapsed
deriving DecidableEq

/-- Modelled from the spec: raw error observed by the drop_on wrapper before
the on_error policy is applied.  When the back_pressure window elapses before
the child accepts, the error is the back-pressure kind carrying the
configured duration; otherwise the child response is taken as is. -/
def dropOnRawErr (backPressureMs : Nat) (outcome : DropOutcome) : Option DropOnErr :=
  match outcome with
  | .childResponded none => none
  | .childResponded (some n) => some (DropOnErr.childErr n)
  | .backPressureElapsed => some (DropOnErr.backPressureExceeded backPressureMs)

/-- Modelled from the spec: the response the drop_on wrapper sends upstream
for one transaction.  A non-nil raw error is swallowed (responded as nil,
after logging) exactly when the on_error flag is set; otherwise it is
surfaced upstream. -/
def dropOnRespond (onError : Bool) (backPressureMs : Nat) (outcome : DropOutcome) :
    Option DropOnErr :=
  match dropOnRawErr backPressureMs outcome with
  | some e => if onError then none else some e
  | none => none

/-!
### The dedupe processor

Modelled from the spec: the dedupe processor implementation is absent from
the sources (only its tests are present).  The processor computes a
fingerprint for each message, performs an add-if-absent operation on a named
cache, drops the message when the fingerprint was already present, forwards
it otherwise, and on cache access failure applies the drop_on_err policy.
Messages are opaque ids; the fingerprint is an arbitrary function of the
message; the cache is the set of stored fingerprints, with none standing for
a cache whose access fails.
-/

/-- Result of the add-if-absent cache operation of the dedupe processor. -/
inductive CacheAddResult
  | added
  | alreadyExists
  | accessError
deriving DecidableEq

/-- Modelled from the spec: add-if-absent on the named cache.  A missing
cache yields an access error; a present key is reported and left alone; an
absent key is stored. -/
def cacheAdd (cache : Option (List String)) (key : String) :
    CacheAddResult × Option (List String) :=
  match cache with
  | none => (CacheAddResult.accessError, none)
  | some keys =>
    if key ∈ keys then (CacheAddResult.alreadyExists, some keys)
    else (CacheAddResult.added, some (key :: keys))

/-- Modelled from the spec: the per-message dedupe decision.  Returns whether
the message is forwarded downstream, paired with the updated cache. -/
def dedupeMsg (dropOnErr : Bool) (key : String) (cache : Option (List String)) :
    Bool × Option (List String) :=
  match cacheAdd cache key with
  | (CacheAddResult.added, c) => (true, c)
  | (CacheAddResult.alreadyExists, c) => (false, c)
  | (CacheAddResult.accessError, c) => (!dropOnErr, c)

/-- Modelled from the spec: a stream of messages passed one by one through
the dedupe processor, threading the cache.  Returns the messages that emerge
downstream together with the final cache. -/
def dedupeStream (f : Nat → String) (dropOnErr : Bool) :
    Option (List String) → List Nat → List Nat × Option (List String)
  | cache, [] => ([], cache)
  | cache, m :: ms =>
    let r := dedupeMsg dropOnErr (f m) cache
    let rest := dedupeStream f dropOnErr r.2 ms
    (if r.1 then m :: rest.1 else rest.1, rest.2)

/-- A fingerprint present in the cache stays present through further dedupe
processing. -/
theorem dedupeStream_cache_mono (f : Nat → String) (dropOnErr : Bool)
    (keys : List String) (k : String) (hk : k ∈ keys) (ms : List Nat) :
    ∃ keys2, (dedupeStream f dropOnErr (some keys) ms).2 = some keys2 ∧ k ∈ keys2 := by
  induction ms generalizing keys with
  | nil => exact ⟨keys, rfl, hk⟩
  | cons m ms ih =>
    by_cases h : f m ∈ keys
    · simpa [dedupeStream, dedupeMsg, cacheAdd, h] using ih keys hk
    · have := ih (f m :: keys) (List.mem_cons_of_mem _ hk)
      simpa [dedupeStream, dedupeMsg, cacheAdd, h] using this

/-- Messages whose fingerprint is already cached are all dropped. -/
theorem dedupeStream_all_cached_dropped (f : Nat → String) (dropOnErr : Bool)
    (keys : List String) (k : String) (hk : k ∈ keys) (ms : List Nat)
    (hall : ∀ m ∈ ms, f m = k) :
    (dedupeStream f dropOnErr (some keys) ms).1 = [] := by
  induction ms generalizing keys with
  | nil => rfl
  | cons m ms ih =>
    have hm : f m = k := hall m (List.mem_cons_self m ms)
    have hmem : f m ∈ keys := hm ▸ hk
    have hrec := ih keys hk fun x hx => hall x (List.mem_cons_of_mem _ hx)
    simp [dedupeStream, dedupeMsg, cacheAdd, hmem, hrec]

/-!
### The SQS writer retry loop

Shallow embedding of the WriteBatch retry loop of the sqsWriter
(internal/impl/aws/output_sqs.go).  Batch entries are opaque numeric ids.
The AWS service and the backoff policy are oracles supplied per iteration:
the backoff wait (none models backoff.Stop), the SendMessageBatch outcome,
and which select arm fires while waiting to retry.
-/

/-- The errors the WriteBatch loop can return.  timeout models
component.ErrTimeout; sendErr models an error returned by SendMessageBatch;
recordFault models the per-record sender-fault error; failedToSend models
the aggregated failed-to-send error. -/
inductive SqsWriteErr
  | timeout
  | sendErr (n : Nat)
  | recordFault (id : Nat)
  | failedToSend (n : Nat)
deriving DecidableEq

/-- One entry of the Failed list of a SendMessageBatch response. -/
structure FailedEntry where
  id : Nat
  senderFault : Bool
deriving DecidableEq

/-- Outcome of one SendMessageBatch call. -/
inductive SendOutcome
  | fail (e : Nat)
  | ok (failed : List FailedEntry)
deriving DecidableEq

/-- Which arm of the retry-wait select fires: the backoff timer, the
enclosing context being cancelled, or the writer close channel. -/
inductive WaitOutcome
  | slept
  | ctxCancelled
  | closedChan
deriving DecidableEq

/-- Per-iteration oracle for the WriteBatch loop: the backoff wait (none is
backoff.Stop), the send outcome, and the select arm taken if a retry wait is
reached. -/
structure SqsIterEnv where
  wait : Option Nat
  send : SendOutcome
  waitEvent : WaitOutcome
deriving DecidableEq

/-- State of the WriteBatch loop: the entries of the current request, the
entries not yet added to a request, and the current value of the err
variable. -/
structure SqsLoopState where
  current : List Nat
  remaining : List Nat
  err : Option SqsWriteErr
deriving DecidableEq

/-- Rebuilds the request entries from the Failed list of a response,
stopping with the record error at the first sender-fault entry; mirrors the
loop over unproc in WriteBatch. -/
def requeueFailed : List FailedEntry → Except SqsWriteErr (List Nat)
  | [] => Except.ok []
  | f :: fs =>
    if f.senderFault then Except.error (SqsWriteErr.recordFault f.id)
    else
      match requeueFailed fs with
      | Except.error e => Except.error e
      | Except.ok rest => Except.ok (f.id :: rest)

/-- Tops the current request up to the SQS batch ceiling of ten entries from
the remaining entries; mirrors the add-remaining-records block at the bottom
of the WriteBatch loop. -/
def sqsRefill (current remaining : List Nat) : List Nat × List Nat :=
  let l := current.length
  if remaining.length > 0 ∧ l < 10 then
    let room := 10 - l
    if room < remaining.length then
      (current ++ remaining.take room, remaining.drop room)
    else (current ++ remaining, [])
  else (current, remaining)

/-- One iteration of the WriteBatch loop body, given that the current
request is non-empty.  An error result models a return statement of the Go
function (carrying the value WriteBatch returns); an ok result is the state
carried into the next iteration. -/
def sqsIter (st : SqsLoopState) (env : SqsIterEnv) :
    Except (Option SqsWriteErr) SqsLoopState :=
  match env.send with
  | SendOutcome.fail e =>
    match env.wait with
    | none => Except.error (some (SqsWriteErr.sendErr e))
    | some _ =>
      match env.waitEvent with
      | WaitOutcome.slept => Except.ok { st with err := some (SqsWriteErr.sendErr e) }
      | WaitOutcome.ctxCancelled => Except.error (some SqsWriteErr.timeout)
      | WaitOutcome.closedChan => Except.error (some (SqsWriteErr.sendErr e))
  | SendOutcome.ok failed =>
    if failed.isEmpty then
      let r := sqsRefill [] st.remaining
      Except.ok { current := r.1, remaining := r.2, err := none }
    else
      match requeueFailed failed with
      | Except.error e => Except.error (some e)
      | Except.ok ids =>
        let err := some (SqsWriteErr.failedToSend failed.length)
        match env.wait with
        | none => Except.error err
        | some _ =>
          match env.waitEvent with
          | WaitOutcome.slept =>
            let r := sqsRefill ids st.remaining
            Except.ok { current := r.1, remaining := r.2, err := err }
          | WaitOutcome.ctxCancelled => Except.error (some SqsWriteErr.timeout)
          | WaitOutcome.closedChan => Except.error err

/-- The WriteBatch retry loop, driven by a list of per-iteration oracles.
Returns the value WriteBatch returns, or none when the oracle list is
exhausted before the loop terminates. -/
def sqsLoop : SqsLoopState → List SqsIterEnv → Option (Option SqsWriteErr)
  | st, [] => if st.current.isEmpty then some st.err else none
  | st, env :: envs =>
    if st.current.isEmpty then some st.err
    else
      match sqsIter st env with
      | Except.error r => some r
      | Except.ok st2 => sqsLoop st2 envs

/-- An iteration reaches the retry wait when the send fails outright, or
when the response reports failed entries none of which is a sender fault. -/
def reachesRetryWait (env : SqsIterEnv) : Prop :=
  (∃ e, env.send = SendOutcome.fail e) ∨
  (∃ fs, env.send = SendOutcome.ok fs ∧ fs ≠ [] ∧ ∀ f ∈ fs, f.senderFault = false)

/-- A Failed list with no sender faults requeues successfully. -/
theorem requeueFailed_ok_of_no_fault (fs : List FailedEntry)
    (h : ∀ f ∈ fs, f.senderFault = false) :
    ∃ ids, requeueFailed fs = Except.ok ids := by
  induction fs with
  | nil => exact ⟨[], rfl⟩
  | cons f fs ih =>
    have hf : f.senderFault = false := h f (List.mem_cons_self _ _)
    obtain ⟨ids, hids⟩ := ih fun x hx => h x (List.mem_cons_of_mem _ hx)
    exact ⟨f.id :: ids, by simp [requeueFailed, hf, hids]⟩

/-- C7: cancellation of the enclosing context on any iteration of the SQS
WriteBatch retry loop that reaches the retry wait makes the whole call
return the timeout error kind, which is distinguishable from every upstream
SQS error. -/
theorem sqs_cancel_returns_timeout (st : SqsLoopState) (env : SqsIterEnv)
    (envs : List SqsIterEnv) (hne : st.current ≠ [])
    (hreach : reachesRetryWait env) (hwait : env.wait ≠ none)
    (hcancel : env.waitEvent = WaitOutcome.ctxCancelled) :
    sqsLoop st (env :: envs) = some (some SqsWriteErr.timeout) ∧
    ∀ n, SqsWriteErr.timeout ≠ SqsWriteErr.sendErr n := by
  refine ⟨?_, fun n h => by cases h⟩
  have hemp : st.current.isEmpty = false := by
    cases h : st.current with
    | nil => exact absurd h hne
    | cons a l => rfl
  obtain ⟨w, hw⟩ : ∃ w, env.wait = some w := by
    cases h : env.wait with
    | none => exact absurd h hwait
    | some w => exact ⟨w, rfl⟩
  rcases hreach with ⟨e, hsend⟩ | ⟨fs, hsend, hfs, hnf⟩
  · simp [sqsLoop, hemp, sqsIter, hsend, hw, hcancel]
  · obtain ⟨ids, hids⟩ := requeueFailed_ok_of_no_fault fs hnf
    have hfe : fs.isEmpty = false := by
      cases fs with
      | nil => exact absurd rfl hfs
      | cons a l => rfl
    simp [sqsLoop, hemp, sqsIter, hsend, hfe, hids, hw, hcancel]

/-- C7 witness: a one-entry batch whose send fails while the context is
cancelled during the retry wait returns the timeout error. -/
theorem sqs_cancel_returns_timeout_witness :
    sqsLoop ⟨[0], [], none⟩
      [⟨some 1, SendOutcome.fail 7, WaitOutcome.ctxCancelled⟩] =
      some (some SqsWriteErr.timeout) := by
  exact (sqs_cancel_returns_timeout ⟨[0], [], none⟩
    ⟨some 1, SendOutcome.fail 7, WaitOutcome.ctxCancelled⟩ []
    (by decide) (Or.inl ⟨7, rfl⟩) (by decide) rfl).1

/-!
### The Kinesis coordinated consumer

Shallow embedding of the per-shard consumer goroutine of the kinesisReader
(runConsumer) and of its getIter helper.  The Kinesis service, the
checkpointer and the record batcher (whose implementation is outside the
sources) are oracles: the service answers shard-iterator requests, the
batcher is represented by its observable state (the last acknowledged
sequence returned by GetSequence plus opaque content), and each loop
iteration is driven by the outcome of the record pull and by the select arm
that fires.
-/

/-- Error classes of the AWS calls made by the consumer: canceled covers
every error that awsErrIsTimeout accepts, expiredIterator is the
ErrCodeExpiredIteratorException code, other errors are opaque. -/
inductive AwsKErr
  | canceled
  | expiredIterator
  | otherErr (n : Nat)
deriving DecidableEq

/-- Embeds awsErrIsTimeout: true exactly for cancellation-class errors. -/
def awsErrIsTimeout : AwsKErr → Bool
  | AwsKErr.canceled => true
  | _ => false

/-- Shard iterator types used by getIter. -/
inductive IterType
  | trimHorizon
  | latest
  | afterSequenceNumber
deriving DecidableEq

/-- A GetShardIterator request: the iterator type and the optional starting
sequence number. -/
structure IterRequest where
  iterType : IterType
  startingSequence : Option String
deriving DecidableEq

/-- The request getIter issues first: after the stored sequence when one is
known, otherwise trim-horizon or latest according to start_from_oldest. -/
def iterRequestFor (startFromOldest : Bool) (sequence : String) : IterRequest :=
  if sequence.length > 0 then
    ⟨IterType.afterSequenceNumber, some sequence⟩
  else if startFromOldest then ⟨IterType.trimHorizon, none⟩
  else ⟨IterType.latest, none⟩

/-- Embeds getIter: issue the primary request; when it yields no iterator,
fall back to a trim-horizon request; when that also yields none, fail. -/
def getIter (svc : IterRequest → Except AwsKErr (Option String))
    (startFromOldest : Bool) (sequence : String) : Except AwsKErr String :=
  match svc (iterRequestFor startFromOldest sequence) with
  | Except.error e => Except.error e
  | Except.ok r =>
    let iter := r.getD ""
    if iter = "" then
      match svc ⟨IterType.trimHorizon, none⟩ with
      | Except.error e => Except.error e
      | Except.ok r2 =>
        let iter2 := r2.getD ""
        if iter2 = "" then Except.error (AwsKErr.otherErr 0)
        else Except.ok iter2
    else Except.ok iter

/-- A successfully obtained shard iterator is never empty. -/
theorem getIter_ok_ne_empty (svc : IterRequest → Except AwsKErr (Option String))
    (startFromOldest : Bool) (sequence : String) (iter : String)
    (h : getIter svc startFromOldest sequence = Except.ok iter) : iter ≠ "" := by
  unfold getIter at h
  cases h1 : svc (iterRequestFor startFromOldest sequence) with
  | error e => rw [h1] at h; cases h
  | ok r =>
    rw [h1] at h
    simp only at h
    by_cases he : r.getD "" = ""
    · rw [if_pos he] at h
      cases h2 : svc ⟨IterType.trimHorizon, none⟩ with
      | error e => rw [h2] at h; cases h
      | ok r2 =>
        rw [h2] at h
        simp only at h
        by_cases he2 : r2.getD "" = ""
        · rw [if_pos he2] at h; cases h
        · rw [if_neg he2] at h
          cases h
          exact he2
    · rw [if_neg he] at h
      cases h
      exact he

/-- The four states of the per-shard consumer. -/
inductive ConsumerState
  | consuming
  | yielding
  | finished
  | closing
deriving DecidableEq

/-- The pull channel of the consumer: unblocked (closed channel), blocked,
or a timer armed for a backoff wait. -/
inductive PullChan
  | unblocked
  | blocked
  | timed (ms : Nat)
deriving DecidableEq

/-- A Kinesis record, identified by its sequence number. -/
structure KRecord where
  seq : String
deriving DecidableEq

/-- Outcome of one getRecords call.  On failure the iterator handed back by
getRecords is always the input iterator. -/
inductive GetRecordsRes
  | ok (records : List KRecord) (nextIter : String)
  | fail (e : AwsKErr)
deriving DecidableEq

/-- Observable state of the per-shard record batcher: the last acknowledged
sequence (GetSequence) plus opaque internal content. -/
structure Batcher where
  sequence : String
  content : Nat
deriving DecidableEq

/-- The mutable state of the consumer goroutine loop. -/
structure ConsumerLoopSt where
  state : ConsumerState
  pending : List KRecord
  iter : String
  nextPull : PullChan
  batcher : Batcher
deriving DecidableEq

/-- Embeds unblockPullChan: switches the pull channel to unblocked only when
it is currently blocked. -/
def unblockPull (st : ConsumerLoopSt) : ConsumerLoopSt :=
  if st.nextPull = PullChan.blocked then { st with nextPull := PullChan.unblocked }
  else st

/-- Embeds the record-pull phase of the consumer loop: when consuming with
no pending records and an unblocked pull channel, perform getRecords; on a
non-timeout failure arm the backoff timer and, for an expired-iterator
error, refresh the iterator at the last acknowledged sequence; on success
install the records and the next iterator; in every pull case an empty
iterator afterwards marks the shard finished. -/
def consumerPullPhase (svc : IterRequest → Except AwsKErr (Option String))
    (startFromOldest : Bool) (pull : GetRecordsRes) (boffNext : Nat)
    (st : ConsumerLoopSt) : ConsumerLoopSt :=
  if st.state = ConsumerState.consuming ∧ st.pending = [] ∧
      st.nextPull = PullChan.unblocked then
    let st1 :=
      match pull with
      | GetRecordsRes.fail e =>
        if awsErrIsTimeout e then st
        else
          let st2 := { st with nextPull := PullChan.timed boffNext }
          if e = AwsKErr.expiredIterator then
            match getIter svc startFromOldest st.batcher.sequence with
            | Except.ok newIter => { st2 with iter := newIter }
            | Except.error _ => st2
          else st2
      | GetRecordsRes.ok records nextIter =>
        let st2 := { st with pending := records, iter := nextIter }
        if records = [] then { st2 with nextPull := PullChan.timed boffNext }
        else { st2 with nextPull := PullChan.blocked }
    if st1.iter = "" then { st1 with state := ConsumerState.finished } else st1
  else unblockPull st

/-- Checkpoint actions a consumer can perform when its goroutine exits. -/
inductive ExitAction
  | deleteCheckpoint
  | yieldCheckpoint (seq : String)
  | finalCheckpoint (seq : String)
deriving DecidableEq

/-- Embeds the deferred switch of the consumer goroutine: the checkpoint
action performed at exit as a function of the terminal state; no action is
performed in any other state. -/
def consumerExitAction (s : ConsumerState) (seq : String) : Option ExitAction :=
  match s with
  | ConsumerState.finished => some ExitAction.deleteCheckpoint
  | ConsumerState.yielding => some (ExitAction.yieldCheckpoint seq)
  | ConsumerState.closing => some (ExitAction.finalCheckpoint seq)
  | ConsumerState.consuming => none

/-- Outcome of one checkpoint commit. -/
inductive CommitRes
  | ok (stillOwned : Bool)
  | fail (e : AwsKErr)
deriving DecidableEq

/-- The select arm that fires at the bottom of the consumer loop. -/
inductive SelectEvent
  | commitDue (parentCancelled : Bool) (res : CommitRes)
  | timedBatch
  | flushAccepted
  | pullReady
  | parentDone
deriving DecidableEq

/-- Result of one iteration of the consumer loop: either the goroutine
exits in a terminal state, performing the checkpoint action of that state,
or the loop continues with a new state. -/
inductive ConsumerStepRes
  | exit (s : ConsumerState) (act : Option ExitAction)
  | cont (st : ConsumerLoopSt)
deriving DecidableEq

/-- Embeds the select at the bottom of the consumer loop.  A due commit
first checks the parent context; a commit that observes another owner turns
the state to yielding and exits; a cancelled parent context turns the state
to closing and exits; all other arms continue. -/
def consumerSelect (ev : SelectEvent) (st : ConsumerLoopSt) : ConsumerStepRes :=
  match ev with
  | SelectEvent.commitDue parentCancelled res =>
    if parentCancelled then
      ConsumerStepRes.exit ConsumerState.closing
        (consumerExitAction ConsumerState.closing st.batcher.sequence)
    else
      match res with
      | CommitRes.fail _ => ConsumerStepRes.cont st
      | CommitRes.ok stillOwned =>
        if stillOwned then ConsumerStepRes.cont st
        else
          ConsumerStepRes.exit ConsumerState.yielding
            (consumerExitAction ConsumerState.yielding st.batcher.sequence)
  | SelectEvent.timedBatch => ConsumerStepRes.cont st
  | SelectEvent.flushAccepted => ConsumerStepRes.cont st
  | SelectEvent.pullReady =>
    ConsumerStepRes.cont { st with nextPull := PullChan.unblocked }
  | SelectEvent.parentDone =>
    ConsumerStepRes.exit ConsumerState.closing
      (consumerExitAction ConsumerState.closing st.batcher.sequence)

/-- Oracle for the batching phase of one loop iteration, standing for the
record batcher whose implementation is outside the sources: whether a final
FlushMessage yields a message, and the batcher state after the phase. -/
structure FlushOracle where
  flushGivesMessage : Bool
  batcherAfter : Batcher
deriving DecidableEq

/-- One full iteration of the consumer goroutine loop: the record-pull
phase, then the batching phase (when the consumer is finished with no
pending records and no batched message remains, the goroutine exits and the
deferred switch performs the exit action of the terminal state), then the
select. -/
def consumerIteration (svc : IterRequest → Except AwsKErr (Option String))
    (startFromOldest : Bool) (pull : GetRecordsRes) (boffNext : Nat)
    (hasPendingMsg : Bool) (fl : FlushOracle) (ev : SelectEvent)
    (st : ConsumerLoopSt) : ConsumerStepRes :=
  let st1 := consumerPullPhase svc startFromOldest pull boffNext st
  if !hasPendingMsg ∧ st1.pending = [] ∧ st1.state = ConsumerState.finished ∧
      !fl.flushGivesMessage then
    ConsumerStepRes.exit ConsumerState.finished
      (consumerExitAction ConsumerState.finished st1.batcher.sequence)
  else
    consumerSelect ev { st1 with batcher := fl.batcherAfter }

/-- An exit produced by the select phase is either a yield or a close, with
the matching checkpoint action at the current batcher sequence. -/
theorem consumerSelect_exit (ev : SelectEvent) (st : ConsumerLoopSt)
    (s : ConsumerState) (act : Option ExitAction)
    (h : consumerSelect ev st = ConsumerStepRes.exit s act) :
    (s = ConsumerState.yielding ∧
      act = some (ExitAction.yieldCheckpoint st.batcher.sequence)) ∨
    (s = ConsumerState.closing ∧
      act = some (ExitAction.finalCheckpoint st.batcher.sequence)) := by
  cases ev with
  | commitDue parentCancelled res =>
    cases parentCancelled with
    | true =>
      simp only [consumerSelect, if_pos, consumerExitAction] at h
      cases h
      exact Or.inr ⟨rfl, rfl⟩
    | false =>
      cases res with
      | fail e => simp [consumerSelect] at h
      | ok stillOwned =>
        cases stillOwned with
        | true => simp [consumerSelect] at h
        | false =>
          simp only [consumerSelect, consumerExitAction] at h
          cases h
          exact Or.inl ⟨rfl, rfl⟩
  | timedBatch => simp [consumerSelect] at h
  | flushAccepted => simp [consumerSelect] at h
  | pullReady => simp [consumerSelect] at h
  | parentDone =>
    simp only [consumerSelect, consumerExitAction] at h
    cases h
    exact Or.inr ⟨rfl, rfl⟩

/-- C2: every exit of the per-shard consumer goroutine performs exactly the
exit action of its terminal state: a Finished exit deletes the checkpoint
row, a Yielding exit writes a final yielded checkpoint, a Closing exit
stores a final checkpoint, and no other checkpoint action is performed at
exit. -/
theorem consumer_exit_actions (svc : IterRequest → Except AwsKErr (Option String))
    (startFromOldest : Bool) (pull : GetRecordsRes) (boffNext : Nat)
    (hasPendingMsg : Bool) (fl : FlushOracle) (ev : SelectEvent)
    (st : ConsumerLoopSt) (s : ConsumerState) (act : Option ExitAction)
    (h : consumerIteration svc startFromOldest pull boffNext hasPendingMsg fl ev st =
      ConsumerStepRes.exit s act) :
    (s = ConsumerState.finished ∧ act = some ExitAction.deleteCheckpoint) ∨
    (s = ConsumerState.yielding ∧ ∃ q, act = some (ExitAction.yieldCheckpoint q)) ∨
    (s = ConsumerState.closing ∧ ∃ q, act = some (ExitAction.finalCheckpoint q)) := by
  unfold consumerIteration at h
  dsimp only at h
  split at h
  · cases h
    exact Or.inl ⟨rfl, rfl⟩
  · rcases consumerSelect_exit _ _ _ _ h with ⟨hs, ha⟩ | ⟨hs, ha⟩
    · exact Or.inr (Or.inl ⟨hs, _, ha⟩)
    · exact Or.inr (Or.inr ⟨hs, _, ha⟩)

/-- C2 witness: a cancelled parent context exits the consumer in the
Closing state, storing a final checkpoint. -/
theorem consumer_exit_actions_witness :
    (ConsumerState.closing = ConsumerState.finished ∧
      some (ExitAction.finalCheckpoint "5") = some ExitAction.deleteCheckpoint) ∨
    (ConsumerState.closing = ConsumerState.yielding ∧
      ∃ q, some (ExitAction.finalCheckpoint "5") =
        some (ExitAction.yieldCheckpoint q)) ∨
    (ConsumerState.closing = ConsumerState.closing ∧
      ∃ q, some (ExitAction.finalCheckpoint "5") =
        some (ExitAction.finalCheckpoint q)) := by
  exact consumer_exit_actions (fun _ => Except.ok (some "i")) true
    (GetRecordsRes.ok [] "it") 1 true ⟨true, ⟨"5", 0⟩⟩ SelectEvent.parentDone
    ⟨ConsumerState.consuming, [], "it", PullChan.blocked, ⟨"3", 0⟩⟩
    ConsumerState.closing (some (ExitAction.finalCheckpoint "5")) (by decide)

/-- C8: when a record pull fails with an expired-shard-iterator error, the
consumer obtains a fresh iterator positioned after the last acknowledged
sequence, stays in the Consuming state, and its batcher state is
untouched. -/
theorem consumer_iterator_refresh (svc : IterRequest → Except AwsKErr (Option String))
    (startFromOldest : Bool) (boffNext : Nat) (st : ConsumerLoopSt) (ni : String)
    (h1 : st.state = ConsumerState.consuming) (h2 : st.pending = [])
    (h3 : st.nextPull = PullChan.unblocked)
    (h4 : getIter svc startFromOldest st.batcher.sequence = Except.ok ni) :
    consumerPullPhase svc startFromOldest (GetRecordsRes.fail AwsKErr.expiredIterator)
        boffNext st =
      { st with iter := ni, nextPull := PullChan.timed boffNext } ∧
    (consumerPullPhase svc startFromOldest
        (GetRecordsRes.fail AwsKErr.expiredIterator) boffNext st).state =
      ConsumerState.consuming ∧
    (consumerPullPhase svc startFromOldest
        (GetRecordsRes.fail AwsKErr.expiredIterator) boffNext st).batcher =
      st.batcher ∧
    (st.batcher.sequence ≠ "" →
      iterRequestFor startFromOldest st.batcher.sequence =
        ⟨IterType.afterSequenceNumber, some st.batcher.sequence⟩) := by
  have hne : ni ≠ "" := getIter_ok_ne_empty svc startFromOldest st.batcher.sequence ni h4
  have hmain : consumerPullPhase svc startFromOldest
      (GetRecordsRes.fail AwsKErr.expiredIterator) boffNext st =
      { st with iter := ni, nextPull := PullChan.timed boffNext } := by
    simp [consumerPullPhase, h1, h2, h3, awsErrIsTimeout, h4, hne]
  refine ⟨hmain, ?_, ?_, ?_⟩
  · rw [hmain]; exact h1
  · rw [hmain]
  · intro hseq
    have hlen : st.batcher.sequence.length > 0 := by
      cases hq : st.batcher.sequence.length with
      | zero =>
        exact absurd (String.ext (List.length_eq_zero.mp hq)) hseq
      | succ n => exact Nat.succ_pos n
    simp [iterRequestFor, hlen]

/-- C8 witness: a concrete expired-iterator pull refreshed from a concrete
service at the acknowledged sequence 42. -/
theorem consumer_iterator_refresh_witness :
    consumerPullPhase (fun _ => Except.ok (some "newIt")) true
        (GetRecordsRes.fail AwsKErr.expiredIterator) 3
        ⟨ConsumerState.consuming, [], "old", PullChan.unblocked, ⟨"42", 0⟩⟩ =
      ⟨ConsumerState.consuming, [], "newIt", PullChan.timed 3, ⟨"42", 0⟩⟩ := by
  exact (consumer_iterator_refresh (fun _ => Except.ok (some "newIt")) true 3
    ⟨ConsumerState.consuming, [], "old", PullChan.unblocked, ⟨"42", 0⟩⟩ "newIt"
    rfl rfl rfl rfl).1

/-!
### Balanced-shard rebalance: claiming and stealing

Shallow embedding of the steal section of runBalancedShards.  The map of
observed client claims is a list of pairs (client id, list of shard ids);
the iteration order of the Go map is the order of the list.  The random
source and the outcome of each conditional Claim call are oracles.
-/

/-- A steal attempt: the victim client and the shard picked from its
claims. -/
structure StealAttempt where
  victim : String
  shard : String
deriving DecidableEq

/-- Lookup in an association list of client claims, mirroring access to the
Go map (a missing key yields the empty list). -/
def claimsLookup (clients : List (String × List String)) (id : String) :
    List String :=
  match clients.find? (fun p => p.1 = id) with
  | some p => p.2
  | none => []

/-- Embeds the steal scan of runBalancedShards: iterate the observed
clients, skip ourselves, and for any client holding more than one shard
above our own count pick one of its shards at the random index and attempt
to claim it; a failed claim moves on to the next client, a successful claim
stops the scan.  Returns every attempt made. -/
def stealScan (selfID : String) (selfClaims : Nat) (pick : String → Nat)
    (claimOk : String → String → Bool) :
    List (String × List String) → List StealAttempt
  | [] => []
  | (cid, claims) :: rest =>
    if cid = selfID then stealScan selfID selfClaims pick claimOk rest
    else if claims.length > selfClaims + 1 then
      let shard := claims.getD (pick cid % claims.length) ""
      if claimOk cid shard then [⟨cid, shard⟩]
      else ⟨cid, shard⟩ :: stealScan selfID selfClaims pick claimOk rest
    else stealScan selfID selfClaims pick claimOk rest

/-- Embeds one rebalance pass of runBalancedShards for a single stream,
restricted to its stealing behaviour: when any unclaimed shard was found
the pass claims those and never steals; otherwise it runs the steal scan
with our own claim count read from the claims map. -/
def rebalancePass (selfID : String) (unclaimed : List String)
    (clients : List (String × List String)) (pick : String → Nat)
    (claimOk : String → String → Bool) : List StealAttempt :=
  if unclaimed.length > 0 then []
  else stealScan selfID (claimsLookup clients selfID).length pick claimOk clients

/-- An in-range getD access returns a member of the list. -/
theorem getD_mem_of_lt (l : List String) (i : Nat) (d : String)
    (h : i < l.length) : l.getD i d ∈ l := by
  induction l generalizing i with
  | nil => cases h
  | cons a t ih =>
    cases i with
    | zero => exact List.mem_cons_self a t
    | succ n =>
      exact List.mem_cons_of_mem a (ih n (Nat.lt_of_succ_lt_succ h))

/-- Every attempt of the steal scan targets another client that holds more
than one shard above our own count, and the shard comes from that client
at the random index. -/
theorem stealScan_attempts (selfID : String) (selfClaims : Nat)
    (pick : String → Nat) (claimOk : String → String → Bool)
    (clients : List (String × List String)) (att : StealAttempt)
    (h : att ∈ stealScan selfID selfClaims pick claimOk clients) :
    ∃ claims, (att.victim, claims) ∈ clients ∧ att.victim ≠ selfID ∧
      claims.length > selfClaims + 1 ∧
      att.shard = claims.getD (pick att.victim % claims.length) "" ∧
      att.shard ∈ claims := by
  induction clients with
  | nil => cases h
  | cons c rest ih =>
    obtain ⟨cid, claims⟩ := c
    by_cases hself : cid = selfID
    · rw [stealScan, if_pos hself] at h
      exact (ih h).imp fun cl ⟨hm, hrest⟩ =>
        ⟨List.mem_cons_of_mem _ hm, hrest⟩
    · by_cases hgt : claims.length > selfClaims + 1
      · rw [stealScan, if_neg hself, if_pos hgt] at h
        by_cases hclaim : claimOk cid (claims.getD (pick cid % claims.length) "") = true
        · rw [if_pos hclaim] at h
          rcases List.mem_singleton.mp h with hatt
          subst hatt
          refine ⟨claims, List.mem_cons_self _ _, hself, hgt, rfl, ?_⟩
          exact getD_mem_of_lt claims _ ""
            (Nat.mod_lt _ (Nat.lt_of_lt_of_le (Nat.succ_pos _) (Nat.le_of_lt hgt)))
        · rw [if_neg hclaim] at h
          rcases List.mem_cons.mp h with hatt | hmem
          · subst hatt
            refine ⟨claims, List.mem_cons_self _ _, hself, hgt, rfl, ?_⟩
            exact getD_mem_of_lt claims _ ""
              (Nat.mod_lt _ (Nat.lt_of_lt_of_le (Nat.succ_pos _) (Nat.le_of_lt hgt)))
          · exact (ih hmem).imp fun cl ⟨hm, hrest⟩ =>
              ⟨List.mem_cons_of_mem _ hm, hrest⟩
      · rw [stealScan, if_neg hself, if_neg hgt] at h
        exact (ih h).imp fun cl ⟨hm, hrest⟩ =>
          ⟨List.mem_cons_of_mem _ hm, hrest⟩

/-- C1 counterexample: an instance holding zero shards attempts to steal
from a client holding exactly two, although zero is not strictly smaller
than the holdings of that client minus two; the claimed minus-two threshold
does not match the code. -/
theorem steal_threshold_counterexample :
    rebalancePass "me" [] [("me", []), ("other", ["s0", "s1"])] (fun _ => 0)
        (fun _ _ => true) = [⟨"other", "s0"⟩] ∧
    (claimsLookup [("me", []), ("other", ["s0", "s1"])] "me").length = 0 ∧
    (claimsLookup [("me", []), ("other", ["s0", "s1"])] "other").length = 2 ∧
    ¬ ((0 : Nat) < 2 - 2) := by
  refine ⟨?_, rfl, rfl, by decide⟩
  rfl

/-- C1 (amended): in a rebalance pass that found no unclaimed shard, the
instance attempts to steal from another observed client only if it holds at
least two fewer shards than that client (the client holds more than the
instance plus one), and the shard it attempts is the one at the random
index into that client's claims; when an unclaimed shard was found no steal
is attempted. -/
theorem steal_threshold_amended (selfID : String) (unclaimed : List String)
    (clients : List (String × List String)) (pick : String → Nat)
    (claimOk : String → String → Bool) (att : StealAttempt)
    (h : att ∈ rebalancePass selfID unclaimed clients pick claimOk) :
    unclaimed = [] ∧
    ∃ claims, (att.victim, claims) ∈ clients ∧ att.victim ≠ selfID ∧
      claims.length > (claimsLookup clients selfID).length + 1 ∧
      att.shard = claims.getD (pick att.victim % claims.length) "" ∧
      att.shard ∈ claims := by
  unfold rebalancePass at h
  by_cases hu : unclaimed.length > 0
  · rw [if_pos hu] at h
    cases h
  · rw [if_neg hu] at h
    refine ⟨List.length_eq_zero.mp (Nat.eq_zero_of_not_pos hu), ?_⟩
    exact stealScan_attempts _ _ _ _ _ _ h

/-- C1 amended witness: a client holding three shards against our one is a
valid steal target, at the random index one. -/
theorem steal_threshold_amended_witness :
    ([] : List String) = [] ∧
    ∃ claims, (("other", claims) ∈
        [("me", ["a"]), ("other", ["s0", "s1", "s2"])]) ∧
      ("other" : String) ≠ "me" ∧
      claims.length >
        (claimsLookup [("me", ["a"]), ("other", ["s0", "s1", "s2"])] "me").length
          + 1 ∧
      ("s1" : String) = claims.getD (1 % claims.length) "" ∧
      ("s1" : String) ∈ claims := by
  have h : (⟨"other", "s1"⟩ : StealAttempt) ∈
      rebalancePass "me" [] [("me", ["a"]), ("other", ["s0", "s1", "s2"])]
        (fun _ => 1) (fun _ _ => true) := by
    simp [rebalancePass, stealScan, claimsLookup, List.find?]
  exact steal_threshold_amended "me" [] [("me", ["a"]), ("other", ["s0", "s1", "s2"])]
    (fun _ => 1) (fun _ _ => true) ⟨"other", "s1"⟩ h

/-!
### Driver Connect methods

Shallow embedding of the Connect methods of the sqsWriter, the
kinesisReader, the NATS kvOutput and the NATS jetStreamOutput.  Connections,
clients, checkpointers and JetStream contexts are opaque numeric handles;
the environment supplies the outcome of each external call.  Each Connect
returns the error (none for nil) together with the state after the call.
-/

/-- Connection state of the sqsWriter: the sqs field. -/
structure SqsWriterSt where
  sqsClient : Option Nat
deriving DecidableEq

/-- Embeds sqsWriter.Connect: a non-nil client short-circuits; otherwise the
client is created and stored, always returning nil. -/
def sqsConnect (newClient : Nat) (st : SqsWriterSt) : Option Nat × SqsWriterSt :=
  if st.sqsClient.isSome then (none, st)
  else (none, ⟨some newClient⟩)

/-- Connection state of the kinesisReader: the message channel (true when
non-nil), the service handle and the checkpointer handle. -/
structure KinesisReaderSt where
  msgChanOpen : Bool
  svc : Option Nat
  checkpointer : Option Nat
deriving DecidableEq

/-- Environment of kinesisReader.Connect: the new service handle, the
checkpointer construction outcome and the stream-exists wait outcome. -/
structure KinesisConnectEnv where
  newSvc : Nat
  checkpointerRes : Except Nat Nat
  waitStreamsErr : Option Nat

/-- Embeds kinesisReader.Connect: a non-nil message channel short-circuits;
otherwise the checkpointer is built (failure leaves the state untouched),
the service, checkpointer and channel are installed, and the streams are
awaited (failure surfaces after installation). -/
def kinesisConnect (env : KinesisConnectEnv) (st : KinesisReaderSt) :
    Option Nat × KinesisReaderSt :=
  if st.msgChanOpen then (none, st)
  else
    match env.checkpointerRes with
    | Except.error e => (some e, st)
    | Except.ok cp =>
      let st2 : KinesisReaderSt := ⟨true, some env.newSvc, some cp⟩
      match env.waitStreamsErr with
      | some e => (some e, st2)
      | none => (none, st2)

/-- Connection state of the NATS kvOutput: the connection and the KV bucket
handle. -/
structure NatsKvSt where
  natsConn : Option Nat
  keyValue : Option Nat
deriving DecidableEq

/-- Environment of kvOutput.Connect: the dial outcome, the JetStream context
outcome and the KV bucket lookup outcome. -/
structure NatsKvEnv where
  connectRes : Except Nat Nat
  jsRes : Except Nat Nat
  kvRes : Except Nat Nat

/-- Embeds kvOutput.Connect: a non-nil connection short-circuits; otherwise
dial, obtain the JetStream context and the KV bucket, storing the connection
and bucket only when every step succeeds (failures close the dialled
connection and leave the state untouched). -/
def natsKvConnect (env : NatsKvEnv) (st : NatsKvSt) : Option Nat × NatsKvSt :=
  if st.natsConn.isSome then (none, st)
  else
    match env.connectRes with
    | Except.error e => (some e, st)
    | Except.ok conn =>
      match env.jsRes with
      | Except.error e => (some e, st)
      | Except.ok _ =>
        match env.kvRes with
        | Except.error e => (some e, st)
        | Except.ok kvh => (none, ⟨some conn, some kvh⟩)

/-- Connection state of the NATS jetStreamOutput: the connection and the
JetStream context. -/
structure JetStreamSt where
  natsConn : Option Nat
  jCtx : Option Nat
deriving DecidableEq

/-- Environment of jetStreamOutput.Connect: the dial outcome and the
JetStream context outcome. -/
structure JetStreamEnv where
  connectRes : Except Nat Nat
  jsRes : Except Nat Nat

/-- Embeds jetStreamOutput.Connect: a non-nil connection short-circuits;
otherwise dial and obtain the JetStream context, storing both only when
every step succeeds. -/
def jetStreamConnect (env : JetStreamEnv) (st : JetStreamSt) :
    Option Nat × JetStreamSt :=
  if st.natsConn.isSome then (none, st)
  else
    match env.connectRes with
    | Except.error e => (some e, st)
    | Except.ok conn =>
      match env.jsRes with
      | Except.error e => (some e, st)
      | Except.ok js => (none, ⟨some conn, some js⟩)

/-- C9: calling Connect on an already connected component returns nil and
leaves the connection state unchanged, for the NATS KV output, the NATS
JetStream output, the Kinesis reader and the SQS writer. -/
theorem connect_idempotent (n : Nat) (kenv : KinesisConnectEnv)
    (kvenv : NatsKvEnv) (jsenv : JetStreamEnv)
    (s1 : SqsWriterSt) (h1 : s1.sqsClient.isSome)
    (s2 : KinesisReaderSt) (h2 : s2.msgChanOpen = true)
    (s3 : NatsKvSt) (h3 : s3.natsConn.isSome)
    (s4 : JetStreamSt) (h4 : s4.natsConn.isSome) :
    sqsConnect n s1 = (none, s1) ∧
    kinesisConnect kenv s2 = (none, s2) ∧
    natsKvConnect kvenv s3 = (none, s3) ∧
    jetStreamConnect jsenv s4 = (none, s4) := by
  refine ⟨?_, ?_, ?_, ?_⟩
  · simp [sqsConnect, h1]
  · simp [kinesisConnect, h2]
  · simp [natsKvConnect, h3]
  · simp [jetStreamConnect, h4]

/-- C9 witness: the four Connect methods at concrete connected states. -/
theorem connect_idempotent_witness :
    sqsConnect 9 ⟨some 1⟩ = (none, ⟨some 1⟩) ∧
    kinesisConnect ⟨2, Except.error 3, some 4⟩ ⟨true, some 5, some 6⟩ =
      (none, ⟨true, some 5, some 6⟩) ∧
    natsKvConnect ⟨Except.error 1, Except.error 1, Except.error 1⟩
      ⟨some 7, some 8⟩ = (none, ⟨some 7, some 8⟩) ∧
    jetStreamConnect ⟨Except.error 1, Except.error 1⟩ ⟨some 2, none⟩ =
      (none, ⟨some 2, none⟩) := by
  exact connect_idempotent 9 ⟨2, Except.error 3, some 4⟩
    ⟨Except.error 1, Except.error 1, Except.error 1⟩
    ⟨Except.error 1, Except.error 1⟩
    ⟨some 1⟩ (by decide) ⟨true, some 5, some 6⟩ rfl
    ⟨some 7, some 8⟩ (by decide) ⟨some 2, none⟩ (by decide)

/-!
### The dynamic broker update path

Shallow embedding of the OnUpdate handler shared by the dynamic input and
the dynamic output brokers: parse the posted config, construct the new
component, record the config under the id, install the component into the
fan broker, and on installation failure remove the recorded config again.
Configs and errors are opaque numbers; the stored config map is an
association list.
-/

/-- Removes an id from the stored config map. -/
def mapErase (id : String) (l : List (String × Nat)) : List (String × Nat) :=
  l.filter (fun p => p.1 ≠ id)

/-- Stores a config under an id in the stored config map. -/
def mapInsert (id : String) (c : Nat) (l : List (String × Nat)) :
    List (String × Nat) :=
  (id, c) :: mapErase id l

/-- Looks an id up in the stored config map. -/
def mapLookup (id : String) (l : List (String × Nat)) : Option Nat :=
  (l.find? (fun p => p.1 = id)).map Prod.snd

/-- Environment of one dynamic-broker update: the unmarshal outcome, the
component construction outcome (including the indefinite-retry wrapping for
outputs) and the broker installation outcome. -/
structure DynUpdateEnv where
  parseRes : Except Nat Nat
  constructRes : Except Nat Nat
  installErr : Option Nat

/-- Embeds the OnUpdate handler of newDynamicInput and newDynamicOutput:
returns the error handed back to the admin API together with the stored
config map after the update. -/
def dynUpdate (env : DynUpdateEnv) (id : String) (configs : List (String × Nat)) :
    Option Nat × List (String × Nat) :=
  match env.parseRes with
  | Except.error e => (some e, configs)
  | Except.ok newConf =>
    match env.constructRes with
    | Except.error e => (some e, configs)
    | Except.ok _ =>
      let configs1 := mapInsert id newConf configs
      match env.installErr with
      | some e => (some e, mapErase id configs1)
      | none => (none, configs1)

/-- An update succeeds when the config parses, the component constructs and
the installation into the broker returns no error. -/
def dynUpdateSucceeds (env : DynUpdateEnv) : Bool :=
  match env.parseRes, env.constructRes, env.installErr with
  | Except.ok _, Except.ok _, none => true
  | _, _, _ => false

/-- Erasing an id removes it from lookup. -/
theorem mapLookup_mapErase (id : String) (l : List (String × Nat)) :
    mapLookup id (mapErase id l) = none := by
  induction l with
  | nil => rfl
  | cons p t ih =>
    by_cases hp : p.1 = id
    · simp only [mapErase, mapLookup] at ih ⊢
      simp [hp, ih]
    · simp only [mapErase, mapLookup] at ih ⊢
      simp [hp, ih]

/-- C10 counterexample: an update whose config fails to unmarshal while the
stored config map already holds an entry for the id (a static config, or a
prior install awaiting the started callback) returns the error but leaves
that entry in the map; the claim that the map holds no entry for the id
after every failed update is false. -/
theorem dyn_update_leaves_prior_entry :
    dynUpdateSucceeds ⟨Except.error 5, Except.ok 0, none⟩ = false ∧
    (dynUpdate ⟨Except.error 5, Except.ok 0, none⟩ "a" [("a", 1)]).1 = some 5 ∧
    mapLookup "a" (dynUpdate ⟨Except.error 5, Except.ok 0, none⟩ "a"
      [("a", 1)]).2 = some 1 := by
  exact ⟨rfl, rfl, rfl⟩

/-- C10 (amended): every failing dynamic-broker update of an id returns the
error and adds no entry for that id: an unmarshal or construction failure
leaves the stored config map untouched, an installation failure removes the
entry it had just stored, and hence a map holding no entry for the id before
a failed update holds none afterwards. -/
theorem dyn_update_failure_amended (env : DynUpdateEnv) (id : String)
    (configs : List (String × Nat))
    (hfail : dynUpdateSucceeds env = false) :
    (∃ e, (dynUpdate env id configs).1 = some e) ∧
    ((dynUpdate env id configs).2 = configs ∨
      mapLookup id (dynUpdate env id configs).2 = none) ∧
    (mapLookup id configs = none →
      mapLookup id (dynUpdate env id configs).2 = none) := by
  cases hp : env.parseRes with
  | error e =>
    refine ⟨⟨e, by simp [dynUpdate, hp]⟩, Or.inl (by simp [dynUpdate, hp]), ?_⟩
    intro habsent
    simpa [dynUpdate, hp] using habsent
  | ok nc =>
    cases hc : env.constructRes with
    | error e =>
      refine ⟨⟨e, by simp [dynUpdate, hp, hc]⟩,
        Or.inl (by simp [dynUpdate, hp, hc]), ?_⟩
      intro habsent
      simpa [dynUpdate, hp, hc] using habsent
    | ok comp =>
      cases hi : env.installErr with
      | none => simp [dynUpdateSucceeds, hp, hc, hi] at hfail
      | some e =>
        have herase : mapLookup id (dynUpdate env id configs).2 = none := by
          simp only [dynUpdate, hp, hc, hi]
          exact mapLookup_mapErase id (mapInsert id nc configs)
        exact ⟨⟨e, by simp [dynUpdate, hp, hc, hi]⟩, Or.inr herase,
          fun _ => herase⟩

/-- C10 amended witness: an update whose installation fails, against a map
already holding the id, returns the error and erases the entry. -/
theorem dyn_update_failure_amended_witness :
    (∃ e, (dynUpdate ⟨Except.ok 1, Except.ok 2, some 3⟩ "a" [("a", 9)]).1 =
      some e) ∧
    ((dynUpdate ⟨Except.ok 1, Except.ok 2, some 3⟩ "a" [("a", 9)]).2 =
        [("a", 9)] ∨
      mapLookup "a" (dynUpdate ⟨Except.ok 1, Except.ok 2, some 3⟩ "a"
        [("a", 9)]).2 = none) ∧
    (mapLookup "a" ([("a", 9)] : List (String × Nat)) = none →
      mapLookup "a" (dynUpdate ⟨Except.ok 1, Except.ok 2, some 3⟩ "a"
        [("a", 9)]).2 = none) := by
  exact dyn_update_failure_amended ⟨Except.ok 1, Except.ok 2, some 3⟩ "a"
    [("a", 9)] rfl

/-- C4: for every transaction whose child output responds with a non-nil
error, the drop_on wrapper responds nil upstream when on_error is true, and
responds with the child error upstream when on_error is false. -/
theorem dropOn_child_error_policy (onError : Bool) (bp : Nat) (n : Nat) :
    dropOnRespond onError bp (DropOutcome.childResponded (some n)) =
      if onError then none else some (DropOnErr.childErr n) := by
  cases onError <;> rfl

/-- C3 counterexample: with on_error false and a back_pressure window of
100ms, a transaction the child does not accept within the window is
responded upstream with the back-pressure error, not with nil; the claim
that nil is responded for every setting of the on_error flag is false.  This
is pinned by TestDropOnBackpressureWithErrors, which expects the upstream
response to equal the back-pressure error string. -/
theorem dropOn_backpressure_not_always_nil :
    dropOnRespond false 100 DropOutcome.backPressureElapsed =
      some (DropOnErr.backPressureExceeded 100) ∧
    dropOnRespond false 100 DropOutcome.backPressureElapsed ≠ none := by
  exact ⟨rfl, by decide⟩

/-- C3 (amended): for every transaction not accepted by the child within the
back_pressure window, the raised error is the back-pressure kind carrying
the configured duration; it is responded as nil upstream exactly when
on_error is true, and surfaced upstream when on_error is false. -/
theorem dropOn_backpressure_policy (onError : Bool) (bp : Nat) :
    dropOnRawErr bp DropOutcome.backPressureElapsed =
      some (DropOnErr.backPressureExceeded bp) ∧
    dropOnRespond onError bp DropOutcome.backPressureElapsed =
      if onError then none else some (DropOnErr.backPressureExceeded bp) := by
  cases onError <;> exact ⟨rfl, rfl⟩

/-- C5: for every sequence of messages with identical dedupe fingerprint
passing through the dedupe processor while the cache retains the
fingerprint, exactly one message emerges downstream, and it is the first
message to reach the processor. -/
theorem dedupe_first_wins (f : Nat → String) (dropOnErr : Bool)
    (keys : List String) (m : Nat) (ms : List Nat)
    (hsame : ∀ x ∈ ms, f x = f m) (habsent : f m ∉ keys) :
    (dedupeStream f dropOnErr (some keys) (m :: ms)).1 = [m] := by
  have hmem : f m ∈ f m :: keys := List.mem_cons_self _ _
  have hrest := dedupeStream_all_cached_dropped f dropOnErr (f m :: keys) (f m) hmem ms hsame
  simp [dedupeStream, dedupeMsg, cacheAdd, habsent, hrest]

/-- C5 witness: three messages sharing a fingerprint, the first emerges. -/
theorem dedupe_first_wins_witness :
    (dedupeStream (fun _ => "k") true (some []) [7, 8, 9]).1 = [7] := by
  exact dedupe_first_wins (fun _ => "k") true [] 7 [8, 9] (by decide)
    (by decide)

/-- C6: for every message whose named cache access fails during dedupe, the
message is dropped when drop_on_err is true and forwarded downstream when
drop_on_err is false. -/
theorem dedupe_cache_error_policy (f : Nat → String) (ms : List Nat) :
    (dedupeStream f true none ms).1 = [] ∧
    (dedupeStream f false none ms).1 = ms := by
  constructor
  · induction ms with
    | nil => rfl
    | cons m ms ih => simp [dedupeStream, dedupeMsg, cacheAdd, ih]
  · induction ms with
    | nil => rfl
    | cons m ms ih => simp [dedupeStream, dedupeMsg, cacheAdd, ih]

end Benthos
